import Mathlib

/-!
Shallow embedding of the NWM JSON-header data-access notebook
(DataAccessExample_V1.ipynb).  The notebook fetches one JSON header per
remote location, opens it as a lazy dataset view, selects streamflow values
for a fixed list of feature ids together with the time coordinate, gathers
the per-location results in parallel, and finally sorts the gathered pairs
by their first timestamp to build the Streamflow and Timestamp lists.

External collaborators (fsspec, ujson, xarray, joblib, psutil) are modelled
by their observable behaviour at the exact call sites the notebook uses:
a fetched-and-resolved header is a Dataset (feature-id coordinate values,
the streamflow variable aligned to them, and the time coordinate); a
location whose fetch or decode fails is an Except.error; label selection
on a missing coordinate label fails (featureNotFound, the notebook-level
view of a KeyError from sel); CPython's sorted with a key function
evaluates the key on every element (an empty timestamp array makes the
key lambda raise IndexError, modelled by emptyTimestamps) and then performs
a stable sort, modelled by List.insertionSort with the non-strict key
comparison resultLE, which is extensionally equal to any stable sort.
Numeric streamflow values and time values are carried opaquely by the
pipeline (no arithmetic is performed on them), so they are modelled as
rationals.
-/

/-- Failure kinds observable from the notebook's single-location pipeline:
a location that cannot be opened, a header that does not decode, a
requested feature id absent from the feature-id coordinate (KeyError from
label selection), and the IndexError raised by the sort key on an empty
timestamp array. -/
inductive PipelineError where
  | unreachableSource
  | malformedHeader
  | featureNotFound (fid : Int)
  | emptyTimestamps
  deriving DecidableEq

/-- A resolved header view: the feature-id coordinate values, the
streamflow variable aligned entry-for-entry with that coordinate, and the
time coordinate values.  The consistency field is the xarray invariant
that a variable and the coordinate it is indexed by have equal length. -/
structure Dataset where
  feature_id : List Int
  streamflow : List Rat
  time : List Rat
  consistent : streamflow.length = feature_id.length

/-- The pair returned by process_file for one location: the selected
streamflow values (aligned to the requested feature ids) and the time
coordinate values of the same dataset. -/
structure ExtractionResult where
  streamflow : List Rat
  times : List Rat
  deriving DecidableEq

/-- Label lookup along a coordinate: walks the coordinate values and the
variable values in lockstep and returns the variable entry at the first
position whose coordinate equals the requested id, or none when the id is
absent.  This is the observable behaviour of sel with a unique index. -/
def lookupFeature : List Int → List Rat → Int → Option Rat
  | [], _, _ => none
  | _ :: _, [], _ => none
  | c :: cs, v :: vs, fid =>
    if c = fid then some v else lookupFeature cs vs fid

/-- Embedding of select_flow: ds.streamflow.sel(feature_id=feature_id)
for a list of requested ids, returning the selected values in the order
the ids were given and failing on the first id absent from the
feature-id coordinate. -/
def select_flow (ds : Dataset) : List Int → Except PipelineError (List Rat)
  | [] => Except.ok []
  | fid :: rest =>
    match lookupFeature ds.feature_id ds.streamflow fid with
    | none => Except.error (PipelineError.featureNotFound fid)
    | some v =>
      match select_flow ds rest with
      | Except.error e => Except.error e
      | Except.ok vs => Except.ok (v :: vs)

/-- Embedding of select_time: returns the dataset's time coordinate
values. -/
def select_time (ds : Dataset) : List Rat := ds.time

/-- Embedding of process_file for one location.  Fetching and resolving
the remote header are external I/O, so the location is represented by its
fetch-and-resolve outcome: either a Dataset or the error the fetch raised.
The function then composes select_flow and select_time, propagating any
failure unchanged. -/
def process_file (fetched : Except PipelineError Dataset)
    (feature_ids : List Int) : Except PipelineError ExtractionResult :=
  match fetched with
  | Except.error e => Except.error e
  | Except.ok ds =>
    match select_flow ds feature_ids with
    | Except.error e => Except.error e
    | Except.ok vs => Except.ok ⟨vs, select_time ds⟩

/-- Embedding of the joblib dispatch loop: process_file is applied to
every location and the results are gathered into one list; the first
failing call makes the whole gather fail with that error and no result
list is produced, which is joblib.Parallel's default behaviour. -/
def dispatch (files : List (Except PipelineError Dataset))
    (feature_ids : List Int) : Except PipelineError (List ExtractionResult) :=
  match files with
  | [] => Except.ok []
  | f :: rest =>
    match process_file f feature_ids with
    | Except.error e => Except.error e
    | Except.ok r =>
      match dispatch rest feature_ids with
      | Except.error e => Except.error e
      | Except.ok rs => Except.ok (r :: rs)

/-- The sort key of the assembly step, lambda x: x[1][0]: the first
timestamp of a result.  The default is only reached on an empty timestamp
list, and assemble errors out before sorting in that case. -/
def firstTimestamp (r : ExtractionResult) : Rat := r.times.headD 0

/-- Key order used by the stable sort of the assembly step. -/
def resultLE (a b : ExtractionResult) : Prop :=
  firstTimestamp a ≤ firstTimestamp b

/-- Strict version of the key order; two results related by it have
distinct first timestamps. -/
def resultLT (a b : ExtractionResult) : Prop :=
  firstTimestamp a < firstTimestamp b

instance decResultLE : DecidableRel resultLE := fun a b =>
  decidable_of_iff (firstTimestamp a ≤ firstTimestamp b) Iff.rfl

instance decResultLT : DecidableRel resultLT := fun a b =>
  decidable_of_iff (firstTimestamp a < firstTimestamp b) Iff.rfl

instance : IsTotal ExtractionResult resultLE :=
  ⟨fun a b => le_total (firstTimestamp a) (firstTimestamp b)⟩

instance : IsTrans ExtractionResult resultLE :=
  ⟨fun _ _ _ h1 h2 => le_trans h1 h2⟩

instance : IsAntisymm ExtractionResult resultLT :=
  ⟨fun _ _ h1 h2 => absurd (lt_trans h1 h2) (lt_irrefl _)⟩

/-- Output of the assembly cell: the sorted result_values list and the
Streamflow and Timestamp lists derived from it by the two comprehensions. -/
structure AssembledOutput where
  result_values : List ExtractionResult
  Streamflow : List (List Rat)
  Timestamp : List (List Rat)
  deriving DecidableEq

/-- Embedding of the assembly cell: sorted(result_values, key=lambda x:
x[1][0]) followed by the Streamflow and Timestamp comprehensions.  sorted
evaluates the key on every element before comparing, so one result with an
empty timestamp array makes the whole call raise; otherwise the stable
sort by first timestamp is performed. -/
def assemble (results : List ExtractionResult) :
    Except PipelineError AssembledOutput :=
  if results.all (fun r => !r.times.isEmpty) then
    let rv := List.insertionSort resultLE results
    Except.ok ⟨rv, rv.map (fun r => r.streamflow), rv.map (fun r => r.times)⟩
  else
    Except.error PipelineError.emptyTimestamps

/-- The per-feature series read off the assembled output: the column of
the Streamflow matrix at the position the feature id occupies in the
requested feature_ids list (the series plotted for that feature). -/
def featureSeries (out : AssembledOutput) (j : Nat) : List Rat :=
  out.Streamflow.map (fun row => row.getD j 0)

/-- Embedding of str.strip on a line modelled as its character sequence:
leading and trailing whitespace characters are removed. -/
def stripLine (line : List Char) : List Char :=
  ((line.dropWhile Char.isWhitespace).reverse.dropWhile Char.isWhitespace).reverse

/-- Embedding of the filenamelist.txt reading loop: every line is
stripped of leading and trailing whitespace and appended to the files
list, with no filtering of any kind. -/
def readLocations (lines : List (List Char)) : List (List Char) :=
  lines.map stripLine

/-- Embedding of the worker-count configuration: n_jobs is set to
num_cores, the probed physical core count, and the location list plays no
part in the value. -/
def configuredWorkerCount (num_cores : Nat) (locations : List String) : Nat :=
  num_cores

/-- Lookup along a coordinate of the same length as the variable fails
exactly on the ids absent from the coordinate. -/
theorem lookupFeature_eq_none_iff (cs : List Int) (vs : List Rat) (fid : Int)
    (hlen : vs.length = cs.length) :
    lookupFeature cs vs fid = none ↔ fid ∉ cs := by
  induction cs generalizing vs with
  | nil => simp [lookupFeature]
  | cons c cs ih =>
    cases vs with
    | nil => simp at hlen
    | cons v vs =>
      simp only [lookupFeature]
      by_cases hc : c = fid
      · simp [hc]
      · rw [if_neg hc, ih vs (by simpa using hlen)]
        simp [List.mem_cons]
        tauto

/-- A gathered list that is a permutation of a strictly key-sorted target
sorts to exactly that target: the sorted output is sorted for the
non-strict key order and is a permutation of the target, the target's
keys are pairwise distinct, and a sorted permutation with pairwise
distinct keys is unique. -/
theorem insertionSort_eq_of_perm_of_pairwise_lt
    {l target : List ExtractionResult}
    (hperm : l.Perm target) (htarget : target.Pairwise resultLT) :
    List.insertionSort resultLE l = target := by
  have hsorted : (List.insertionSort resultLE l).Pairwise resultLE :=
    List.sorted_insertionSort resultLE l
  have hperm2 : (List.insertionSort resultLE l).Perm target :=
    (List.perm_insertionSort resultLE l).trans hperm
  have hne_t : target.Pairwise
      (fun a b => firstTimestamp a ≠ firstTimestamp b) :=
    htarget.imp (fun h => ne_of_lt h)
  have hne_s : (List.insertionSort resultLE l).Pairwise
      (fun a b => firstTimestamp a ≠ firstTimestamp b) :=
    (List.Perm.pairwise_iff (fun h => Ne.symm h) hperm2).mpr hne_t
  have hlt_s : (List.insertionSort resultLE l).Pairwise resultLT :=
    (hsorted.and hne_s).imp (fun h => lt_of_le_of_ne h.1 h.2)
  exact List.eq_of_perm_of_sorted hperm2 hlt_s htarget

/-- The all-timestamps-nonempty guard of assemble transfers along a
permutation. -/
theorem all_nonempty_of_perm {l target : List ExtractionResult}
    (hperm : l.Perm target) (h : ∀ r ∈ target, r.times ≠ []) :
    l.all (fun r => !r.times.isEmpty) = true := by
  rw [List.all_eq_true]
  intro r hr
  have : r ∈ target := hperm.mem_iff.mp hr
  simpa [List.isEmpty_iff] using h r this

/-- When the guard of assemble holds, assemble succeeds and its output is
built from the insertion-sorted result list. -/
theorem assemble_eq_ok_of_all {results : List ExtractionResult}
    (h : results.all (fun r => !r.times.isEmpty) = true) :
    assemble results =
      Except.ok ⟨List.insertionSort resultLE results,
        (List.insertionSort resultLE results).map (fun r => r.streamflow),
        (List.insertionSort resultLE results).map (fun r => r.times)⟩ := by
  simp [assemble, h]

instance exceptDecidableEq {ε α : Type} [DecidableEq ε] [DecidableEq α] :
    DecidableEq (Except ε α) := fun a b =>
  match a, b with
  | Except.ok x, Except.ok y =>
    if h : x = y then isTrue (by rw [h])
    else isFalse (fun hc => h (by injection hc))
  | Except.error x, Except.error y =>
    if h : x = y then isTrue (by rw [h])
    else isFalse (fun hc => h (by injection hc))
  | Except.ok _, Except.error _ => isFalse (fun hc => Except.noConfusion hc)
  | Except.error _, Except.ok _ => isFalse (fun hc => Except.noConfusion hc)

/-- C7 counterexample: with 4 probed physical cores and a single input
location, the configured worker count is 4, which exceeds the number of
input locations, refuting the claimed clamp. -/
theorem c7_counterexample_exceeds_locations :
    configuredWorkerCount 4 ["loc1"] = 4 ∧
      ¬ configuredWorkerCount 4 ["loc1"] ≤ (["loc1"] : List String).length := by
  refine ⟨rfl, ?_⟩
  decide

/-- C7 (amended): the worker count configured by the notebook is exactly
the probed physical core count, independent of the location list; it is
at least 1 precisely when the probe reports at least one core, and it is
not bounded by the number of input locations. -/
theorem c7_worker_count_unclamped (num_cores : Nat) (locations : List String)
    (h : 1 ≤ num_cores) :
    1 ≤ configuredWorkerCount num_cores locations ∧
      configuredWorkerCount num_cores locations = num_cores :=
  ⟨h, rfl⟩

/-- C7 witness: the amended statement evaluated with 2 probed cores and
an empty location list. -/
theorem c7_worker_count_unclamped_witness :
    1 ≤ configuredWorkerCount 2 [] ∧ configuredWorkerCount 2 [] = 2 :=
  c7_worker_count_unclamped 2 [] (by decide)

/-- C8 counterexample: a whitespace-only line is stripped to the empty
line and still appended to the location list, refuting the claim that
blank lines are ignored. -/
theorem c8_counterexample_blank_kept :
    readLocations [['u', 'r', 'l', '1'], [' ', ' ', ' '], ['u', 'r', 'l', '2']] =
        [['u', 'r', 'l', '1'], [], ['u', 'r', 'l', '2']] ∧
      [] ∈ readLocations [['u', 'r', 'l', '1'], [' ', ' ', ' '], ['u', 'r', 'l', '2']] := by
  refine ⟨?_, ?_⟩ <;> decide

/-- C8 (amended): the reader produces exactly one entry per input line,
each entry being the whitespace-stripped line; blank lines are not
filtered and appear as empty entries at their position. -/
theorem c8_lines_trimmed_not_dropped (lines : List (List Char)) :
    (readLocations lines).length = lines.length ∧
      ∀ i : Nat, (readLocations lines).get? i = (lines.get? i).map stripLine := by
  refine ⟨by simp [readLocations], ?_⟩
  intro i
  simp [readLocations, List.get?_map]

/-- C9: assembly neither drops nor duplicates results: the sorted
result_values list is a permutation of the gathered input, and the
Streamflow and Timestamp lists each have one entry per gathered result. -/
theorem c9_assemble_permutation_lengths (results : List ExtractionResult)
    (out : AssembledOutput) (hok : assemble results = Except.ok out) :
    out.result_values.Perm results ∧
      out.Streamflow.length = results.length ∧
      out.Timestamp.length = results.length := by
  by_cases hall : results.all (fun r => !r.times.isEmpty) = true
  · rw [assemble_eq_ok_of_all hall] at hok
    injection hok with hok
    subst hok
    refine ⟨List.perm_insertionSort resultLE results, ?_, ?_⟩ <;>
      simp [(List.perm_insertionSort resultLE results).length_eq]
  · unfold assemble at hok
    rw [if_neg hall] at hok
    exact absurd hok (by simp)

/-- C9 witness: the statement evaluated on a single gathered result. -/
theorem c9_assemble_permutation_lengths_witness :
    (AssembledOutput.mk [ExtractionResult.mk [1] [3]] [[1]] [[3]]).result_values.Perm
        [ExtractionResult.mk [1] [3]] ∧
      (AssembledOutput.mk [ExtractionResult.mk [1] [3]] [[1]] [[3]]).Streamflow.length =
        [ExtractionResult.mk [1] [3]].length ∧
      (AssembledOutput.mk [ExtractionResult.mk [1] [3]] [[1]] [[3]]).Timestamp.length =
        [ExtractionResult.mk [1] [3]].length :=
  c9_assemble_permutation_lengths [ExtractionResult.mk [1] [3]]
    (AssembledOutput.mk [ExtractionResult.mk [1] [3]] [[1]] [[3]]) (by decide)

/-- C10: one gathered result with an empty timestamp array makes the
assembly step fail (the sort key raises on the missing first element);
no assembled output with a guessed ordering position is produced. -/
theorem c10_empty_timestamps_error (results : List ExtractionResult)
    (r : ExtractionResult) (hr : r ∈ results) (hempty : r.times = []) :
    assemble results = Except.error PipelineError.emptyTimestamps := by
  have hall : ¬ results.all (fun x => !x.times.isEmpty) = true := by
    intro h
    have := (List.all_eq_true.mp h) r hr
    simp [hempty] at this
  unfold assemble
  rw [if_neg hall]

/-- C10 witness: a batch whose second result has no timestamps. -/
theorem c10_empty_timestamps_error_witness :
    assemble [ExtractionResult.mk [1] [3], ExtractionResult.mk [2] []] =
      Except.error PipelineError.emptyTimestamps :=
  c10_empty_timestamps_error [ExtractionResult.mk [1] [3], ExtractionResult.mk [2] []]
    (ExtractionResult.mk [2] []) (by decide) (by decide)

/-- Flattening the per-result timestamp lists of a batch in which every
result carries exactly one timestep gives the list of first timestamps. -/
theorem flatten_times_eq_map_firstTimestamp (l : List ExtractionResult)
    (h : ∀ r ∈ l, r.times.length = 1) :
    (l.map (fun r => r.times)).flatten = l.map firstTimestamp := by
  induction l with
  | nil => simp
  | cons r l ih =>
    have hr : r.times.length = 1 := h r (List.mem_cons_self r l)
    obtain ⟨t, ht⟩ := List.length_eq_one.mp hr
    have hrest := ih (fun x hx => h x (List.mem_cons_of_mem r hx))
    simp [ht, firstTimestamp, hrest]

/-- C2: for a gathered batch in which every result carries exactly one
timestep, the timestamp sequence of the assembled output (the Timestamp
list flattened) is non-decreasing. -/
theorem c2_assembled_timestamps_monotone (results : List ExtractionResult)
    (out : AssembledOutput)
    (hone : ∀ r ∈ results, r.times.length = 1)
    (hok : assemble results = Except.ok out) :
    out.Timestamp.flatten.Pairwise (fun a b => a ≤ b) := by
  by_cases hall : results.all (fun r => !r.times.isEmpty) = true
  · rw [assemble_eq_ok_of_all hall] at hok
    injection hok with hok
    subst hok
    have hone_s : ∀ r ∈ List.insertionSort resultLE results, r.times.length = 1 :=
      fun r hr => hone r ((List.perm_insertionSort resultLE results).mem_iff.mp hr)
    have hsorted : (List.insertionSort resultLE results).Pairwise resultLE :=
      List.sorted_insertionSort resultLE results
    have hmono : ((List.insertionSort resultLE results).map firstTimestamp).Pairwise
        (fun a b => a ≤ b) :=
      List.Pairwise.map firstTimestamp (fun _ _ hab => hab) hsorted
    simpa [flatten_times_eq_map_firstTimestamp _ hone_s] using hmono
  · unfold assemble at hok
    rw [if_neg hall] at hok
    exact absurd hok (by simp)

/-- C2 witness: two single-timestep results gathered out of time order. -/
theorem c2_assembled_timestamps_monotone_witness :
    (AssembledOutput.mk [ExtractionResult.mk [1] [3], ExtractionResult.mk [2] [7]]
        [[1], [2]] [[3], [7]]).Timestamp.flatten.Pairwise (fun a b => a ≤ b) :=
  c2_assembled_timestamps_monotone
    [ExtractionResult.mk [2] [7], ExtractionResult.mk [1] [3]]
    (AssembledOutput.mk [ExtractionResult.mk [1] [3], ExtractionResult.mk [2] [7]]
      [[1], [2]] [[3], [7]])
    (by decide) (by decide)

/-- C3 counterexample: two distinct results tie on their first timestamp.
The list is sorted by timestamp (non-strictly), yet assembling it and
assembling its reversal give different outputs, because the stable sort
keeps tied elements in arrival order.  This refutes the claim for lists
sorted with ties. -/
theorem c3_counterexample_tie :
    ([ExtractionResult.mk [1] [5], ExtractionResult.mk [2] [5]] : List ExtractionResult).Pairwise
        resultLE ∧
      assemble [ExtractionResult.mk [1] [5], ExtractionResult.mk [2] [5]] ≠
        assemble ([ExtractionResult.mk [1] [5], ExtractionResult.mk [2] [5]].reverse) := by
  refine ⟨?_, ?_⟩ <;> decide

/-- C3 (amended): for a list of results strictly sorted by first
timestamp (pairwise distinct, increasing first timestamps), assembling
the list and assembling its reversal give the same output. -/
theorem c3_reverse_invariance_strict (l : List ExtractionResult)
    (hsorted : l.Pairwise resultLT) :
    assemble l.reverse = assemble l := by
  by_cases hall : l.all (fun r => !r.times.isEmpty) = true
  · have hallrev : l.reverse.all (fun r => !r.times.isEmpty) = true := by
      rw [List.all_eq_true] at hall ⊢
      exact fun r hr => hall r (List.mem_reverse.mp hr)
    rw [assemble_eq_ok_of_all hall, assemble_eq_ok_of_all hallrev]
    have h1 : List.insertionSort resultLE l = l :=
      insertionSort_eq_of_perm_of_pairwise_lt (List.Perm.refl l) hsorted
    have h2 : List.insertionSort resultLE l.reverse = l :=
      insertionSort_eq_of_perm_of_pairwise_lt (List.reverse_perm l) hsorted
    rw [h1, h2]
  · have hallrev : ¬ l.reverse.all (fun r => !r.times.isEmpty) = true := by
      intro h
      apply hall
      rw [List.all_eq_true] at h ⊢
      exact fun r hr => h r (List.mem_reverse.mpr hr)
    unfold assemble
    rw [if_neg hall, if_neg hallrev]

/-- C3 witness: the amended statement on a strictly sorted two-result
batch. -/
theorem c3_reverse_invariance_strict_witness :
    assemble ([ExtractionResult.mk [1] [3], ExtractionResult.mk [2] [7]].reverse) =
      assemble [ExtractionResult.mk [1] [3], ExtractionResult.mk [2] [7]] :=
  c3_reverse_invariance_strict
    [ExtractionResult.mk [1] [3], ExtractionResult.mk [2] [7]] (by decide)

/-- C4: selecting values for a request list containing an id absent from
the view's feature-id coordinate always fails with the feature-not-found
error for a missing id; no value list (with defaults or otherwise) is
returned. -/
theorem c4_missing_feature_errors (ds : Dataset) (fids : List Int)
    (hmiss : ∃ fid ∈ fids, fid ∉ ds.feature_id) :
    ∃ m, m ∈ fids ∧ m ∉ ds.feature_id ∧
      select_flow ds fids = Except.error (PipelineError.featureNotFound m) := by
  induction fids with
  | nil => simp at hmiss
  | cons fid rest ih =>
    by_cases hf : fid ∈ ds.feature_id
    · have hlook : lookupFeature ds.feature_id ds.streamflow fid ≠ none :=
        fun hn => ((lookupFeature_eq_none_iff _ _ _ ds.consistent).mp hn) hf
      obtain ⟨v, hv⟩ := Option.ne_none_iff_exists.mp hlook
      obtain ⟨m0, hm0mem, hm0miss⟩ := hmiss
      have hm0rest : m0 ∈ rest := by
        rcases List.mem_cons.mp hm0mem with h | h
        · exact absurd (h ▸ hf) hm0miss
        · exact h
      obtain ⟨m, hmm, hmiss2, herr⟩ := ih ⟨m0, hm0rest, hm0miss⟩
      refine ⟨m, List.mem_cons_of_mem _ hmm, hmiss2, ?_⟩
      simp only [select_flow]
      rw [← hv, herr]
    · refine ⟨fid, List.mem_cons_self _ _, hf, ?_⟩
      have hlook : lookupFeature ds.feature_id ds.streamflow fid = none :=
        (lookupFeature_eq_none_iff _ _ _ ds.consistent).mpr hf
      simp [select_flow, hlook]

/-- C4 witness: requesting id 99 from a view whose only coordinate value
is 10. -/
theorem c4_missing_feature_errors_witness :
    ∃ m, m ∈ [(99 : Int)] ∧ m ∉ (Dataset.mk [10] [5] [3] rfl).feature_id ∧
      select_flow (Dataset.mk [10] [5] [3] rfl) [99] =
        Except.error (PipelineError.featureNotFound m) :=
  c4_missing_feature_errors (Dataset.mk [10] [5] [3] rfl) [99] (by decide)

/-- C5: a batch in which exactly one location's process call fails makes
the dispatch-and-gather step surface that error; no result list (partial
or otherwise) is produced. -/
theorem c5_single_failure_surfaces (pre post : List (Except PipelineError Dataset))
    (bad : Except PipelineError Dataset) (fids : List Int) (e : PipelineError)
    (hpre : ∀ f ∈ pre, ∃ r, process_file f fids = Except.ok r)
    (hbad : process_file bad fids = Except.error e)
    (hpost : ∀ f ∈ post, ∃ r, process_file f fids = Except.ok r) :
    dispatch (pre ++ bad :: post) fids = Except.error e := by
  induction pre with
  | nil =>
    simp only [List.nil_append, dispatch, hbad]
  | cons f pre ih =>
    obtain ⟨r, hr⟩ := hpre f (List.mem_cons_self _ _)
    have hrest := ih (fun x hx => hpre x (List.mem_cons_of_mem _ hx))
    simp [dispatch, hr, hrest]

/-- C5 witness: a two-location batch whose second location is
unreachable. -/
theorem c5_single_failure_surfaces_witness :
    dispatch [Except.ok (Dataset.mk [10] [5] [3] rfl),
        Except.error PipelineError.unreachableSource] [10] =
      Except.error PipelineError.unreachableSource :=
  c5_single_failure_surfaces [Except.ok (Dataset.mk [10] [5] [3] rfl)] []
    (Except.error PipelineError.unreachableSource) [10]
    PipelineError.unreachableSource
    (by
      intro f hf
      rw [List.mem_singleton] at hf
      subst hf
      exact ⟨ExtractionResult.mk [5] [3], rfl⟩)
    rfl
    (by intro f hf; cases hf)

/-- C6: for a view and a request list of ids all present in the view's
feature-id coordinate, select_flow succeeds with one value per requested
id, each value being the view's entry for that id in the order the ids
were given, and process_file on the resolved view succeeds with those
values paired with the view's time coordinate. -/
theorem c6_subset_extract_length_aligned (ds : Dataset) (fids : List Int)
    (hsub : ∀ fid ∈ fids, fid ∈ ds.feature_id) :
    ∃ vs, select_flow ds fids = Except.ok vs ∧
      vs.length = fids.length ∧
      vs = fids.map (fun fid =>
        (lookupFeature ds.feature_id ds.streamflow fid).getD 0) ∧
      process_file (Except.ok ds) fids = Except.ok ⟨vs, select_time ds⟩ := by
  induction fids with
  | nil => exact ⟨[], rfl, rfl, rfl, rfl⟩
  | cons fid rest ih =>
    have hf := hsub fid (List.mem_cons_self _ _)
    have hlook : lookupFeature ds.feature_id ds.streamflow fid ≠ none :=
      fun hn => ((lookupFeature_eq_none_iff _ _ _ ds.consistent).mp hn) hf
    obtain ⟨v, hv⟩ := Option.ne_none_iff_exists.mp hlook
    obtain ⟨vs, hok, hlen, hmap, _⟩ :=
      ih (fun x hx => hsub x (List.mem_cons_of_mem _ hx))
    have hsf : select_flow ds (fid :: rest) = Except.ok (v :: vs) := by
      simp only [select_flow]
      rw [← hv, hok]
    refine ⟨v :: vs, hsf, by simp [hlen], ?_, by simp [process_file, hsf]⟩
    simp only [List.map_cons, ← hv, Option.getD_some]
    rw [hmap]

/-- C6 witness: requesting ids 20 and 10 from a view with coordinate
values 10 and 20. -/
theorem c6_subset_extract_length_aligned_witness :
    ∃ vs, select_flow (Dataset.mk [10, 20] [1, 2] [3] rfl) [20, 10] = Except.ok vs ∧
      vs.length = [(20 : Int), 10].length ∧
      vs = [(20 : Int), 10].map (fun fid =>
        (lookupFeature (Dataset.mk [10, 20] [1, 2] [3] rfl).feature_id
          (Dataset.mk [10, 20] [1, 2] [3] rfl).streamflow fid).getD 0) ∧
      process_file (Except.ok (Dataset.mk [10, 20] [1, 2] [3] rfl)) [20, 10] =
        Except.ok ⟨vs, select_time (Dataset.mk [10, 20] [1, 2] [3] rfl)⟩ :=
  c6_subset_extract_length_aligned (Dataset.mk [10, 20] [1, 2] [3] rfl) [20, 10]
    (by decide)

/-- Dataset of one location of the end-to-end scenario: the header
declares features 10 and 20, one timestep t, and streamflow values v1
and v2 aligned to the two features. -/
def scenarioDs (v1 v2 t : Rat) : Dataset := ⟨[10, 20], [v1, v2], [t], rfl⟩

/-- Extraction result of one location of the end-to-end scenario. -/
def scenarioResult (v1 v2 t : Rat) : ExtractionResult := ⟨[v1, v2], [t]⟩

/-- C1: the three-location end-to-end scenario.  Processing the three
locations with feature_ids = [10, 20] yields the three expected results,
and assembling them in any gather order gives the time-sorted result
list, the per-feature series 1.0, 1.1, 1.2 for feature 10 (column 0) and
2.0, 2.1, 2.2 for feature 20 (column 1), and the timestamps t0, t1, t2. -/
theorem c1_end_to_end_any_gather_order (t0 t1 t2 : Rat)
    (h01 : t0 < t1) (h12 : t1 < t2)
    (gathered : List ExtractionResult)
    (hperm : gathered.Perm [scenarioResult 1 2 t0,
      scenarioResult (11/10) (21/10) t1, scenarioResult (12/10) (22/10) t2]) :
    dispatch [Except.ok (scenarioDs 1 2 t0),
        Except.ok (scenarioDs (11/10) (21/10) t1),
        Except.ok (scenarioDs (12/10) (22/10) t2)] [10, 20] =
      Except.ok [scenarioResult 1 2 t0, scenarioResult (11/10) (21/10) t1,
        scenarioResult (12/10) (22/10) t2] ∧
    ∃ out, assemble gathered = Except.ok out ∧
      out.result_values = [scenarioResult 1 2 t0,
        scenarioResult (11/10) (21/10) t1, scenarioResult (12/10) (22/10) t2] ∧
      featureSeries out 0 = [1, 11/10, 12/10] ∧
      featureSeries out 1 = [2, 21/10, 22/10] ∧
      out.Timestamp.flatten = [t0, t1, t2] := by
  constructor
  · rfl
  · have htarget : ([scenarioResult 1 2 t0, scenarioResult (11/10) (21/10) t1,
        scenarioResult (12/10) (22/10) t2] : List ExtractionResult).Pairwise resultLT := by
      refine List.Pairwise.cons ?_ (List.Pairwise.cons ?_ (List.pairwise_singleton _ _))
      · intro b hb
        rcases List.mem_cons.mp hb with h | h
        · subst h
          exact h01
        · rw [List.mem_singleton] at h
          subst h
          exact lt_trans h01 h12
      · intro b hb
        rw [List.mem_singleton] at hb
        subst hb
        exact h12
    have hall : gathered.all (fun r => !r.times.isEmpty) = true := by
      refine all_nonempty_of_perm hperm ?_
      intro r hr
      rcases List.mem_cons.mp hr with h | h
      · subst h
        simp [scenarioResult]
      rcases List.mem_cons.mp h with h2 | h2
      · subst h2
        simp [scenarioResult]
      · rw [List.mem_singleton] at h2
        subst h2
        simp [scenarioResult]
    have hsort : List.insertionSort resultLE gathered = [scenarioResult 1 2 t0,
        scenarioResult (11/10) (21/10) t1, scenarioResult (12/10) (22/10) t2] :=
      insertionSort_eq_of_perm_of_pairwise_lt hperm htarget
    refine ⟨⟨[scenarioResult 1 2 t0, scenarioResult (11/10) (21/10) t1,
        scenarioResult (12/10) (22/10) t2],
      [[1, 2], [11/10, 21/10], [12/10, 22/10]],
      [[t0], [t1], [t2]]⟩, ?_, rfl, rfl, rfl, rfl⟩
    rw [assemble_eq_ok_of_all hall, hsort]
    simp [scenarioResult]

/-- C1 witness: the scenario with timestamps 3, 4, 5 and the results
gathered in the order third, first, second. -/
theorem c1_end_to_end_any_gather_order_witness :
    dispatch [Except.ok (scenarioDs 1 2 3),
        Except.ok (scenarioDs (11/10) (21/10) 4),
        Except.ok (scenarioDs (12/10) (22/10) 5)] [10, 20] =
      Except.ok [scenarioResult 1 2 3, scenarioResult (11/10) (21/10) 4,
        scenarioResult (12/10) (22/10) 5] ∧
    ∃ out, assemble [scenarioResult (12/10) (22/10) 5, scenarioResult 1 2 3,
        scenarioResult (11/10) (21/10) 4] = Except.ok out ∧
      out.result_values = [scenarioResult 1 2 3,
        scenarioResult (11/10) (21/10) 4, scenarioResult (12/10) (22/10) 5] ∧
      featureSeries out 0 = [1, 11/10, 12/10] ∧
      featureSeries out 1 = [2, 21/10, 22/10] ∧
      out.Timestamp.flatten = [3, 4, 5] :=
  c1_end_to_end_any_gather_order 3 4 5 (by decide) (by decide)
    [scenarioResult (12/10) (22/10) 5, scenarioResult 1 2 3,
      scenarioResult (11/10) (21/10) 4]
    ((List.Perm.swap _ _ _).trans (List.Perm.cons _ (List.Perm.swap _ _ _)))
